import Mathlib

/-!
# The bean container of `src/beans/beans.go`

A shallow embedding of the three exported functions of package `beans`
(`RegistryBean`, `GetBean`, `InvokeBeanMethod`) and of `getBeanType`.

* The two package-level maps are one explicit state, `Registries`, passed in and out.
* The Go standard library package `reflect` and the methods of the program's own types
  are not part of the repository; what the container uses of them is the parameter
  `Reflect`.  A call that panics in Go is an explicit `panicked` outcome here.
* `mutex.Lock` / `defer mutex.Unlock` bracket the singleton path; in this sequential
  embedding they have no effect, and the deferred unlock also runs when the path panics.
-/

namespace beans

/-! ## What the container uses of package `reflect` -/

/-- A method value, as `reflect.ValueOf(bean).MethodByName(name)` yields when the method
exists: `ins` lists `Type().In(0)`, ..., `Type().In(NumIn()-1)`, `variadic` is
`Type().IsVariadic()`, and `call` is `Call`: it takes the flat list of arguments and gives
the returned values as interface values, or `none` when `Call` panics (the arguments are
rejected by `Call`, or the method body panics). -/
structure Method (Ty Val : Type) where
  ins : List Ty
  variadic : Bool
  call : List Val → Option (List (Option Val))

/-- The services of package `reflect` used by the container.  `Val` is the type of non-nil
interface values (equivalently, valid `reflect.Value`s); a Go `interface{}` is an
`Option Val`, with `none` the nil interface, and a Go `reflect.Type` is an `Option Ty`,
with `none` the nil `Type`.

* `typeOf v`: the dynamic type, `reflect.TypeOf(v)` / `reflect.ValueOf(v).Type()`;
* `zero t`: `reflect.New(t).Elem().Interface()`, the zero value of `t`;
* `methodByName v name`: `reflect.ValueOf(v).MethodByName(name)`, `none` being the
  zero (invalid) `reflect.Value` returned when there is no such method;
* `elem t`: `t.Elem()`, `none` when it panics (no element type);
* `convertibleTo a t`: `a.ConvertibleTo(t)`;
* `convert v t`: `reflect.ValueOf(v).Convert(t)`, `none` when it panics. -/
structure Reflect (Ty Val : Type) where
  typeOf : Val → Ty
  zero : Ty → Val
  methodByName : Val → String → Option (Method Ty Val)
  elem : Ty → Option Ty
  convertibleTo : Ty → Ty → Bool
  convert : Val → Ty → Option Val

/-- The places where a call into `reflect` made by the container can panic. -/
inductive Panic where
  /-- Raised by `reflect.New(nil)`: "reflect: New(nil)". -/
  | newNilType
  /-- Raised by `MethodByName` on the zero `reflect.Value` (`reflect.ValueOf(nil)`). -/
  | methodByNameInvalid
  /-- Raised by `IsZero` on the zero `reflect.Value`: "It panics if the argument is invalid." -/
  | isZeroInvalid
  /-- Raised by `Value.Type` on the zero `reflect.Value`. -/
  | typeOfInvalid
  /-- Raised by `Type.In(i)` with `i` outside `[0, NumIn())`. -/
  | inOutOfRange
  /-- Raised by `Type.Elem()` on a type without element type. -/
  | elemOfNonContainer
  /-- Raised by `Value.Convert` panicking although `ConvertibleTo` holds. -/
  | convert
  /-- Raised by `Value.Call` panicking. -/
  | call
  deriving DecidableEq, Repr

/-- A Go call either returns its results or panics. -/
inductive Outcome (α : Type) where
  | returned (a : α)
  | panicked (p : Panic)
  deriving DecidableEq, Repr

/-- The errors built with `fmt.Errorf` in `beans.go`, one constructor per format string,
carrying the formatted operands. -/
inductive BeanError (Ty : Type) where
  /-- Format "duplicate bean with name %s" -/
  | duplicateBean (beanName : String)
  /-- Format "no bean with name %s" -/
  | noBean (beanName : String)
  /-- Format "no method %s in bean" -/
  | noMethod (methodName : String)
  /-- Format "method %s must have minimum %d params have %d" -/
  | minParams (methodName : String) (numIn len : Nat)
  /-- Format "method %s must have %d params have %d" -/
  | exactParams (methodName : String) (numIn len : Nat)
  /-- Format "method %s. param[%d] must be %s have %s"; `argType = none` stands for the
  `"<invalid Value>"` printed for a nil argument. -/
  | paramType (methodName : String) (i : Nat) (inType : Ty) (argType : Option Ty)
  deriving DecidableEq, Repr

/-! ## The registries -/

/-- The package-level state: `beansTypeRegistries : map[string]reflect.Type` and
`beansInstanceRegistries : map[string]interface{}`.  A map is the function from keys to
`none` (key absent) or `some` of the stored value; the stored `reflect.Type` or
`interface{}` may itself be nil. -/
structure Registries (Ty Val : Type) where
  beansTypeRegistries : String → Option (Option Ty)
  beansInstanceRegistries : String → Option (Option Val)

/-- The map assignment `m[key] = v`. -/
def mapSet {V : Type} (m : String → Option V) (key : String) (v : V) : String → Option V :=
  fun k => if k = key then some v else m k

/-- Both maps as created by `make(...)` at package initialisation. -/
def Registries.empty {Ty Val : Type} : Registries Ty Val :=
  { beansTypeRegistries := fun _ => none, beansInstanceRegistries := fun _ => none }

/-- Go `type ScopeBean int8`. -/
abbrev ScopeBean := Int

/-- Constant `ScopeSingleton = 1`. -/
def ScopeSingleton : ScopeBean := 1

/-- Constant `ScopePrototype = 2`. -/
def ScopePrototype : ScopeBean := 2

section Container

variable {Ty Val : Type}

/-- Go `reflect.TypeOf(value)` for a possibly nil interface value: the nil `Type` for nil. -/
def reflectTypeOf (R : Reflect Ty Val) (value : Option Val) : Option Ty :=
  value.map R.typeOf

/-- Go `reflect.New(beanType).Elem().Interface()`: panics for the nil `Type`, otherwise the
zero value of the type as a (non-nil) interface value. -/
def reflectNewElem (R : Reflect Ty Val) (beanType : Option Ty) : Outcome (Option Val) :=
  match beanType with
  | none => .panicked .newNilType
  | some t => .returned (some (R.zero t))

/-- Function `getBeanType`: `(bean, nil)` when the name is a key of the type map, `(nil, error)`
otherwise. -/
def getBeanType (s : Registries Ty Val) (beanName : String) :
    Option Ty × Option (BeanError Ty) :=
  match s.beansTypeRegistries beanName with
  | some bean => (bean, none)
  | none => (none, some (.noBean beanName))

/-- Function `RegistryBean`: the returned `error` (`none` is the nil error) and the state after. -/
def RegistryBean (R : Reflect Ty Val) (s : Registries Ty Val) (beanName : String)
    (value : Option Val) : Option (BeanError Ty) × Registries Ty Val :=
  match (getBeanType s beanName).2 with
  | none => (some (.duplicateBean beanName), s)
  | some _ =>
    (none, { s with beansTypeRegistries :=
                      mapSet s.beansTypeRegistries beanName (reflectTypeOf R value) })

/-- Function `GetBean`: the returned pair `(interface{}, error)`, or a panic, and the state after. -/
def GetBean (R : Reflect Ty Val) (s : Registries Ty Val) (beanName : String)
    (scope : ScopeBean) :
    Outcome (Option Val × Option (BeanError Ty)) × Registries Ty Val :=
  let (beanType, err) := getBeanType s beanName
  if scope = ScopePrototype then
    match reflectNewElem R beanType with
    | .panicked p => (.panicked p, s)
    | .returned v => (.returned (v, none), s)
  else
    match s.beansInstanceRegistries beanName with
    | some bean => (.returned (bean, none), s)
    | none =>
      match err with
      | some e => (.returned (none, some e), s)
      | none =>
        match reflectNewElem R beanType with
        | .panicked p => (.panicked p, s)
        | .returned v =>
          let s' := { s with beansInstanceRegistries :=
                               mapSet s.beansInstanceRegistries beanName v }
          (.returned ((s'.beansInstanceRegistries beanName).getD none, none), s')

/-! ## The invoker -/

/-- Go `methodType.NumIn()`. -/
def Method.numIn (m : Method Ty Val) : Nat := m.ins.length

/-- Go `methodType.In(i)` for a Go `int` index: the type of parameter `i`, `none` being the
panic for an index outside `[0, NumIn())`. -/
def Method.In (m : Method Ty Val) (i : Int) : Option Ty :=
  if 0 ≤ i then m.ins[i.toNat]? else none

/-- Go `reflect.ValueOf(bean).MethodByName(methodName)`: panics on the zero `reflect.Value`
that `reflect.ValueOf(nil)` is; otherwise the method value, or `none` for the zero
`reflect.Value` returned when the method is not found. -/
def reflectMethodByName (R : Reflect Ty Val) (bean : Option Val) (methodName : String) :
    Outcome (Option (Method Ty Val)) :=
  match bean with
  | none => .panicked .methodByNameInvalid
  | some v => .returned (R.methodByName v methodName)

/-- Go `methodValue.IsZero()` on the result of `MethodByName`: on the zero (invalid)
`reflect.Value` it panics; a method value has kind `Func` and is never nil, so on it
`IsZero` is false. -/
def methodIsZero (methodValue : Option (Method Ty Val)) : Outcome Bool :=
  match methodValue with
  | none => .panicked .isZeroInvalid
  | some _ => .returned false

/-- The expected type of argument position `i` (lines 60-65):
`methodType.In(numIn - 1).Elem()` when the method is variadic and `i >= numIn-1`,
`methodType.In(i)` otherwise.  The subtraction is Go `int` arithmetic. -/
def expectedType (R : Reflect Ty Val) (m : Method Ty Val) (i : Nat) : Outcome Ty :=
  if m.variadic && decide ((m.numIn : Int) - 1 ≤ (i : Int)) then
    match m.In ((m.numIn : Int) - 1) with
    | none => .panicked .inOutOfRange
    | some t =>
      match R.elem t with
      | none => .panicked .elemOfNonContainer
      | some e => .returned e
  else
    match m.In (i : Int) with
    | none => .panicked .inOutOfRange
    | some t => .returned t

/-- The loop of lines 59-76 from index `i` on, over the arguments `args[i:]`: the converted
`params[i:]`, or the error of the first failing position, or a panic. -/
def coerceArgs (R : Reflect Ty Val) (m : Method Ty Val) (methodName : String) :
    Nat → List (Option Val) → Outcome (Except (BeanError Ty) (List Val))
  | _, [] => .returned (.ok [])
  | i, arg :: rest =>
    match expectedType R m i with
    | .panicked p => .panicked p
    | .returned inType =>
      match arg with
      | none => .returned (.error (.paramType methodName i inType none))
      | some argValue =>
        let argType := R.typeOf argValue
        if R.convertibleTo argType inType then
          match R.convert argValue inType with
          | none => .panicked .convert
          | some param =>
            match coerceArgs R m methodName (i + 1) rest with
            | .returned (.ok params) => .returned (.ok (param :: params))
            | other => other
        else
          .returned (.error (.paramType methodName i inType (some argType)))

/-- Function `InvokeBeanMethod`: the returned pair `([]interface{}, error)` (`none` is the nil
slice, respectively the nil error), or a panic; and, second component, the argument lists
of the calls of the target method made on the way (`methodValue.Call`), in order. -/
def InvokeBeanMethod (R : Reflect Ty Val) (bean : Option Val) (methodName : String)
    (args : List (Option Val)) :
    Outcome (Option (List (Option Val)) × Option (BeanError Ty)) × List (List Val) :=
  match reflectMethodByName R bean methodName with
  | .panicked p => (.panicked p, [])
  | .returned methodValue =>
    match methodIsZero methodValue, methodValue with
    | .panicked p, _ => (.panicked p, [])
    | .returned true, _ => (.returned (none, some (.noMethod methodName)), [])
    | .returned false, none => (.panicked .typeOfInvalid, [])
    | .returned false, some m =>
      let numIn := m.numIn
      if numIn > args.length then
        (.returned (none, some (.minParams methodName numIn args.length)), [])
      else if numIn ≠ args.length ∧ ¬ m.variadic then
        (.returned (none, some (.exactParams methodName numIn args.length)), [])
      else
        match coerceArgs R m methodName 0 args with
        | .panicked p => (.panicked p, [])
        | .returned (.error e) => (.returned (none, some e), [])
        | .returned (.ok params) =>
          match m.call params with
          | none => (.panicked .call, [params])
          | some values => (.returned (some values, none), [params])

/-- The two arity tests of lines 52-57 both let the call through. -/
def passesArity (m : Method Ty Val) (args : List (Option Val)) : Prop :=
  ¬ (m.numIn > args.length) ∧ ¬ (m.numIn ≠ args.length ∧ ¬ m.variadic)

instance (m : Method Ty Val) (args : List (Option Val)) : Decidable (passesArity m args) := by
  unfold passesArity; infer_instance

/-- The two errors of the arity tests (lines 53 and 56). -/
def BeanError.isArity : BeanError Ty → Bool
  | .minParams _ _ _ => true
  | .exactParams _ _ _ => true
  | _ => false

/-- The error of the argument loop (lines 68 and 74). -/
def BeanError.isParamType : BeanError Ty → Bool
  | .paramType _ _ _ _ => true
  | _ => false

/-- The call returned a non-nil error satisfying `p`. -/
def failsWith {α : Type} (p : BeanError Ty → Bool) :
    Outcome (α × Option (BeanError Ty)) → Bool
  | .returned (_, some e) => p e
  | _ => false

/-- A method type as the Go type system builds it: when variadic, it has a final parameter
and that parameter is of slice type, so that `In(NumIn()-1).Elem()` is defined. -/
def Method.wellFormed (R : Reflect Ty Val) (m : Method Ty Val) : Bool :=
  !m.variadic ||
    (match m.ins.getLast? with
     | some t => (R.elem t).isSome
     | none => false)

/-- The conversions the specification documents for arguments (identical types, widening
numeric conversions, assignability), as a relation `documented a t` on types, with what
package `reflect` guarantees for such conversions: identical types are among them,
`ConvertibleTo` holds for them, and `Convert` does not panic on any value of the type. -/
structure DocumentedConversions (R : Reflect Ty Val) where
  documented : Ty → Ty → Bool
  identical : ∀ t : Ty, documented t t = true
  convertible : ∀ a t : Ty, documented a t = true → R.convertibleTo a t = true
  converts : ∀ (v : Val) (t : Ty), documented (R.typeOf v) t = true →
    (R.convert v t).isSome = true

/-- One call of the registry API. -/
inductive Op (Val : Type) where
  | registryBean (beanName : String) (value : Option Val)
  | getBean (beanName : String) (scope : ScopeBean)

/-- The state after one call (a panicking `GetBean` leaves the state as it was). -/
def step (R : Reflect Ty Val) (s : Registries Ty Val) : Op Val → Registries Ty Val
  | .registryBean beanName value => (RegistryBean R s beanName value).2
  | .getBean beanName scope => (GetBean R s beanName scope).2

/-- The state after a finite sequence of calls. -/
def run (R : Reflect Ty Val) (s : Registries Ty Val) (ops : List (Op Val)) :
    Registries Ty Val :=
  ops.foldl (step R) s

end Container

/-! ## A concrete program

The beans of the specification's scenarios A and B, for evaluating the container on
concrete inputs:

    type Greeter struct{}
    func (Greeter) Greet(name string) string { return "Hello, " + name }

    type Counter struct{ n int }
    func (Counter) Add(xs ...int) int        { sum of xs }
    func (Counter) At(p *[2]int, i int) int  { return p[i] }

The types that occur are `int`, `string`, `[]int`, `[2]int`, `*[2]int`, `Greeter` and
`Counter`. -/
namespace scenario

/-- The Go types of the program. -/
inductive GoType where
  | int | string | intSlice | intArray2 | intArray2Ptr | Greeter | Counter
  deriving DecidableEq, Repr

/-- The values of these types: an `int` as its integer value, a `[]int` as the list of its
elements (the nil slice is the empty list), a `*[2]int` as nil or the array it points to. -/
inductive GoValue where
  | int (i : Int)
  | string (s : String)
  | intSlice (xs : List Int)
  | intArray2 (a b : Int)
  | intArray2Ptr (p : Option (Int × Int))
  | greeter
  | counter (n : Int)
  deriving DecidableEq, Repr

/-- Two's complement wrap-around of 64-bit `int` arithmetic. -/
def wrapInt64 (x : Int) : Int := (x + 2 ^ 63) % 2 ^ 64 - 2 ^ 63

/-- Go `string(rune(x))`: the UTF-8 text of the code point, "\uFFFD" for an integer that
is not a valid code point. -/
def runeString (x : Int) : String :=
  if 0 ≤ x ∧ x.toNat.isValidChar then String.singleton (Char.ofNat x.toNat)
  else String.singleton (Char.ofNat 0xFFFD)

/-- The dynamic type of a value. -/
def typeOf : GoValue → GoType
  | .int _ => .int
  | .string _ => .string
  | .intSlice _ => .intSlice
  | .intArray2 _ _ => .intArray2
  | .intArray2Ptr _ => .intArray2Ptr
  | .greeter => .Greeter
  | .counter _ => .Counter

/-- The zero value of a type. -/
def zero : GoType → GoValue
  | .int => .int 0
  | .string => .string ""
  | .intSlice => .intSlice []
  | .intArray2 => .intArray2 0 0
  | .intArray2Ptr => .intArray2Ptr none
  | .Greeter => .greeter
  | .Counter => .counter 0

/-- Go `Type.Elem()`: defined for the slice, array and pointer types. -/
def elem : GoType → Option GoType
  | .intSlice => some .int
  | .intArray2 => some .int
  | .intArray2Ptr => some .intArray2
  | _ => none

/-- Go `ConvertibleTo` on these types, following the conversion rules of `reflect`:
identical types; an integer to a string; a slice to an array or to a pointer to an array
of the same element type.  No other pair of these types has identical underlying types. -/
def convertibleTo (a t : GoType) : Bool :=
  a = t || (a = .int && t = .string) ||
    (a = .intSlice && (t = .intArray2 || t = .intArray2Ptr))

/-- Go `Value.Convert`, `none` where it panics: it panics when the type is not convertible,
and, for a slice converted to an array or array pointer, when the slice is shorter than
the array ("the conversion will panic if the slice's length is less than N"). -/
def convert (v : GoValue) (t : GoType) : Option GoValue :=
  match v, t with
  | .int i, .string => some (.string (runeString i))
  | .intSlice (a :: b :: _), .intArray2 => some (.intArray2 a b)
  | .intSlice (a :: b :: _), .intArray2Ptr => some (.intArray2Ptr (some (a, b)))
  | .intSlice _, .intArray2 => none
  | .intSlice _, .intArray2Ptr => none
  | v, t => if typeOf v = t then some v else none

/-- The conversions the specification documents (identical types, widening numeric
conversions, assignability) on the types of this program: `int` is its only numeric
type, none of its types is an interface type and no two of them share an underlying type,
so each type widens or is assignable to itself only. -/
def documentedConversion (a t : GoType) : Bool := a = t

/-- The arguments of a call when all are of type `int`. -/
def intArgs : List GoValue → Option (List Int)
  | [] => some []
  | .int i :: rest => (intArgs rest).map (i :: ·)
  | _ :: _ => none

/-- Method value `Greeter.Greet`. -/
def greet : Method GoType GoValue :=
  { ins := [.string], variadic := false,
    call := fun params =>
      match params with
      | [.string name] => some [some (.string ("Hello, " ++ name))]
      | _ => none }

/-- Method value `Counter.Add`; `Call` packs the arguments into the slice `xs`. -/
def add : Method GoType GoValue :=
  { ins := [.intSlice], variadic := true,
    call := fun params =>
      (intArgs params).map fun xs => [some (.int (wrapInt64 xs.sum))] }

/-- Method value `Counter.At`; the body panics on a nil pointer or an index out of range. -/
def at_ : Method GoType GoValue :=
  { ins := [.intArray2Ptr, .int], variadic := false,
    call := fun params =>
      match params with
      | [.intArray2Ptr (some (a, b)), .int i] =>
        if i = 0 then some [some (.int a)]
        else if i = 1 then some [some (.int b)]
        else none
      | _ => none }

/-- The exported methods of a value, by exact name. -/
def methodByName (v : GoValue) (name : String) : Option (Method GoType GoValue) :=
  match v with
  | .greeter => if name = "Greet" then some greet else none
  | .counter _ =>
    if name = "Add" then some add
    else if name = "At" then some at_
    else none
  | _ => none

/-- Package `reflect` on this program. -/
def goReflect : Reflect GoType GoValue :=
  { typeOf := typeOf, zero := zero, methodByName := methodByName, elem := elem,
    convertibleTo := convertibleTo, convert := convert }

/-- The documented conversions of this program are `documentedConversion`, and `goReflect`
gives them the guarantees of package `reflect`. -/
def documented : DocumentedConversions goReflect :=
  { documented := documentedConversion
    identical := by
      intro t
      simp [documentedConversion]
    convertible := by
      intro a t h
      have e : a = t := by simpa [documentedConversion] using h
      subst e
      simp [goReflect, convertibleTo]
    converts := by
      intro v t h
      have e : typeOf v = t := by simpa [documentedConversion, goReflect] using h
      subst e
      cases v <;> simp [goReflect, convert, typeOf] }

end scenario

/-! ## Lemmas on the registries -/

section RegistryLemmas

variable {Ty Val : Type}

theorem mapSet_same {V : Type} (m : String → Option V) (key : String) (v : V) :
    mapSet m key v key = some v := by
  simp [mapSet]

theorem mapSet_other {V : Type} (m : String → Option V) {key k : String} (v : V)
    (h : k ≠ key) : mapSet m key v k = m k := by
  simp [mapSet, h]

/-- A successful registration stores the exemplar's type under the name. -/
theorem RegistryBean_ok_types (R : Reflect Ty Val) (s : Registries Ty Val) (n : String)
    (v : Option Val) (h : (RegistryBean R s n v).1 = none) :
    (RegistryBean R s n v).2.beansTypeRegistries n = some (reflectTypeOf R v) := by
  unfold RegistryBean getBeanType at *
  cases hn : s.beansTypeRegistries n with
  | none => simp [mapSet]
  | some t => simp [hn] at h

/-- A registration on a registered name fails with the duplicate error, state unchanged. -/
theorem RegistryBean_registered (R : Reflect Ty Val) (s : Registries Ty Val) (n : String)
    (v : Option Val) (T : Option Ty) (h : s.beansTypeRegistries n = some T) :
    RegistryBean R s n v = (some (.duplicateBean n), s) := by
  simp [RegistryBean, getBeanType, h]

/-- No call removes or changes an entry of the type map. -/
theorem step_types (R : Reflect Ty Val) (s : Registries Ty Val) (op : Op Val) (n : String)
    (T : Option Ty) (h : s.beansTypeRegistries n = some T) :
    (step R s op).beansTypeRegistries n = some T := by
  cases op with
  | registryBean k v =>
    simp only [step, RegistryBean, getBeanType]
    cases hk : s.beansTypeRegistries k with
    | some t => simpa using h
    | none =>
      have hne : n ≠ k := by
        intro e; rw [e, hk] at h; cases h
      simp [mapSet, hne, h]
  | getBean k scope =>
    simp only [step, GetBean, getBeanType]
    split
    · split <;> simpa using h
    · split
      · simpa using h
      · split
        · simpa using h
        · split <;> simpa using h

/-- No call removes or changes an entry of the instance map. -/
theorem step_instances (R : Reflect Ty Val) (s : Registries Ty Val) (op : Op Val)
    (n : String) (x : Option Val) (h : s.beansInstanceRegistries n = some x) :
    (step R s op).beansInstanceRegistries n = some x := by
  cases op with
  | registryBean k v =>
    simp only [step, RegistryBean, getBeanType]
    split <;> simpa using h
  | getBean k scope =>
    simp only [step, GetBean, getBeanType]
    split
    · split <;> simpa using h
    · split
      · simpa using h
      · rename_i hk
        split
        · simpa using h
        · split
          · simpa using h
          · have hne : n ≠ k := by
              intro e; rw [e, hk] at h; cases h
            simp [mapSet, hne, h]

theorem run_types (R : Reflect Ty Val) (ops : List (Op Val)) (s : Registries Ty Val)
    (n : String) (T : Option Ty) (h : s.beansTypeRegistries n = some T) :
    (run R s ops).beansTypeRegistries n = some T := by
  induction ops generalizing s with
  | nil => simpa [run] using h
  | cons op ops ih => exact ih (step R s op) (step_types R s op n T h)

theorem run_instances (R : Reflect Ty Val) (ops : List (Op Val)) (s : Registries Ty Val)
    (n : String) (x : Option Val) (h : s.beansInstanceRegistries n = some x) :
    (run R s ops).beansInstanceRegistries n = some x := by
  induction ops generalizing s with
  | nil => simpa [run] using h
  | cons op ops ih => exact ih (step R s op) (step_instances R s op n x h)

/-- A singleton request on a cached name returns the cached value, state unchanged. -/
theorem GetBean_cached (R : Reflect Ty Val) (s : Registries Ty Val) (n : String)
    (scope : ScopeBean) (x : Option Val) (hs : scope ≠ ScopePrototype)
    (h : s.beansInstanceRegistries n = some x) :
    GetBean R s n scope = (.returned (x, none), s) := by
  simp [GetBean, hs, h]

/-- After a singleton request that returned `(x, nil)`, the name is cached with `x`. -/
theorem GetBean_singleton_caches (R : Reflect Ty Val) (s : Registries Ty Val) (n : String)
    (x : Option Val) (h : (GetBean R s n ScopeSingleton).1 = .returned (x, none)) :
    (GetBean R s n ScopeSingleton).2.beansInstanceRegistries n = some x := by
  have hs : ScopeSingleton ≠ ScopePrototype := by decide
  revert h
  simp only [GetBean, getBeanType, hs, if_false]
  cases hc : s.beansInstanceRegistries n with
  | some b =>
    simp only [Outcome.returned.injEq, Prod.mk.injEq, and_true]
    intro e; rw [hc, e]
  | none =>
    cases ht : s.beansTypeRegistries n with
    | none => simp
    | some T =>
      cases T with
      | none => simp [reflectNewElem]
      | some t =>
        simp only [reflectNewElem, mapSet, if_true, Option.getD_some, Outcome.returned.injEq,
          Prod.mk.injEq, and_true]
        intro e; rw [e]

end RegistryLemmas

/-! ## The registry claims -/

section RegistryClaims

variable {Ty Val : Type}

/-- C1 (registration uniqueness): in any registry state, for every name `n` and all
exemplars `v1`, `v2` (nil included), if `RegistryBean(n, v1)` returns the nil error, then
after any further sequence of registry calls (none, for the immediately following call)
`RegistryBean(n, v2)` returns the duplicate-name error. -/
theorem registration_uniqueness (R : Reflect Ty Val) (s : Registries Ty Val) (n : String)
    (v1 v2 : Option Val) (ops : List (Op Val))
    (h : (RegistryBean R s n v1).1 = none) :
    (RegistryBean R (run R (RegistryBean R s n v1).2 ops) n v2).1
      = some (.duplicateBean n) := by
  have h1 := RegistryBean_ok_types R s n v1 h
  have h2 := run_types R ops _ n _ h1
  rw [RegistryBean_registered R _ n v2 _ h2]

/-- C2 (singleton identity): once `GetBean(n, ScopeSingleton)` has returned `(x, nil)`, after
any sequence of `RegistryBean` / `GetBean` calls (any names, any scopes) a further
`GetBean(n, ScopeSingleton)` returns `(x, nil)` again and changes nothing, and the cache
entry of `n` is still `x`. -/
theorem singleton_identity (R : Reflect Ty Val) (s : Registries Ty Val) (n : String)
    (x : Option Val) (ops : List (Op Val))
    (h : (GetBean R s n ScopeSingleton).1 = .returned (x, none)) :
    GetBean R (run R (GetBean R s n ScopeSingleton).2 ops) n ScopeSingleton
        = (.returned (x, none), run R (GetBean R s n ScopeSingleton).2 ops)
      ∧ (run R (GetBean R s n ScopeSingleton).2 ops).beansInstanceRegistries n = some x := by
  have h1 := GetBean_singleton_caches R s n x h
  have h2 := run_instances R ops _ n x h1
  exact ⟨GetBean_cached R _ n ScopeSingleton x (by decide) h2, h2⟩

/-- C3 (unknown lookup), what the code does: for a name with no type registration,
`GetBean(n, ScopePrototype)` panics in `reflect.New(nil)` (the error of `getBeanType` is not
looked at on that path), while for every other scope, the name not being cached, it returns
`(nil, "no bean with name n")`; the state is unchanged in both cases. -/
theorem GetBean_unregistered (R : Reflect Ty Val) (s : Registries Ty Val) (n : String)
    (h : s.beansTypeRegistries n = none) :
    GetBean R s n ScopePrototype = (.panicked .newNilType, s)
      ∧ ∀ scope : ScopeBean, scope ≠ ScopePrototype → s.beansInstanceRegistries n = none →
          GetBean R s n scope = (.returned (none, some (.noBean n)), s) := by
  refine ⟨by simp [GetBean, getBeanType, h, reflectNewElem], ?_⟩
  intro scope hs hc
  simp [GetBean, getBeanType, h, hs, hc]

/-- C4 (resolution of a registered name), what the code does: on an unregistered name,
registration with a non-nil exemplar `x` succeeds and both resolutions then return
an instance and the nil error (the prototype one the zero value of the type of `x`);
registration with the nil exemplar succeeds too, storing the nil `reflect.Type`, after
which `GetBean(n, ScopePrototype)` panics in `reflect.New(nil)`, and so does
`GetBean(n, ScopeSingleton)` when `n` is not cached. -/
theorem GetBean_after_registration (R : Reflect Ty Val) (s : Registries Ty Val) (n : String)
    (h : s.beansTypeRegistries n = none) :
    (∀ x : Val,
        (RegistryBean R s n (some x)).1 = none
        ∧ (GetBean R (RegistryBean R s n (some x)).2 n ScopePrototype).1
            = .returned (some (R.zero (R.typeOf x)), none)
        ∧ ∃ b, (GetBean R (RegistryBean R s n (some x)).2 n ScopeSingleton).1
            = .returned (b, none))
      ∧ (RegistryBean R s n none).1 = none
      ∧ (GetBean R (RegistryBean R s n none).2 n ScopePrototype).1 = .panicked .newNilType
      ∧ (s.beansInstanceRegistries n = none →
          (GetBean R (RegistryBean R s n none).2 n ScopeSingleton).1
            = .panicked .newNilType) := by
  have hs : ScopeSingleton ≠ ScopePrototype := by decide
  refine ⟨fun x => ⟨?_, ?_, ?_⟩, ?_, ?_, ?_⟩
  · simp [RegistryBean, getBeanType, h]
  · simp [RegistryBean, GetBean, getBeanType, h, mapSet, reflectNewElem, reflectTypeOf]
  · cases hc : s.beansInstanceRegistries n with
    | some b =>
      exact ⟨b, by simp [RegistryBean, GetBean, getBeanType, h, hs, hc]⟩
    | none =>
      exact ⟨some (R.zero (R.typeOf x)), by
        simp [RegistryBean, GetBean, getBeanType, h, hs, hc, mapSet, reflectNewElem,
          reflectTypeOf]⟩
  · simp [RegistryBean, getBeanType, h]
  · simp [RegistryBean, GetBean, getBeanType, h, mapSet, reflectNewElem, reflectTypeOf]
  · intro hc
    simp [RegistryBean, GetBean, getBeanType, h, hs, hc, mapSet, reflectNewElem,
      reflectTypeOf]

/-- C5 (prototype freshness and frame): for every name registered with a declared type `T`,
in any state (the name cached or not), `GetBean(n, ScopePrototype)` returns the zero value
of `T` with the nil error and leaves the state, type registry and instance cache, as it
was. -/
theorem prototype_zero_and_frame (R : Reflect Ty Val) (s : Registries Ty Val) (n : String)
    (T : Ty) (h : s.beansTypeRegistries n = some (some T)) :
    GetBean R s n ScopePrototype = (.returned (some (R.zero T), none), s) := by
  simp [GetBean, getBeanType, h, reflectNewElem]

/-- C6 (declared type is write-once): a name registered with declared type `T` (possibly the
nil type of a nil exemplar) is still registered with exactly `T` after any finite sequence
of `RegistryBean` and `GetBean` calls; and a `RegistryBean` that returns an error leaves the
whole state, hence the type registry, unchanged. -/
theorem declared_type_write_once (R : Reflect Ty Val) (s : Registries Ty Val) :
    (∀ (n : String) (T : Option Ty) (ops : List (Op Val)),
        s.beansTypeRegistries n = some T → (run R s ops).beansTypeRegistries n = some T)
      ∧ ∀ (n : String) (v : Option Val),
          (RegistryBean R s n v).1 ≠ none → (RegistryBean R s n v).2 = s := by
  refine ⟨fun n T ops h => run_types R ops s n T h, ?_⟩
  intro n v
  unfold RegistryBean
  split <;> simp

end RegistryClaims

/-! ### Witnesses of the registry claims on the concrete program -/

section RegistryWitnesses

open scenario

theorem registration_uniqueness_witness :
    (RegistryBean goReflect Registries.empty "Greeter" (some .greeter)).1 = none
      ∧ (RegistryBean goReflect
          (run goReflect (RegistryBean goReflect Registries.empty "Greeter" (some .greeter)).2
            [.getBean "Greeter" ScopeSingleton, .registryBean "Counter" (some (.counter 0))])
          "Greeter" none).1 = some (.duplicateBean "Greeter") :=
  ⟨by decide, registration_uniqueness goReflect Registries.empty "Greeter" (some .greeter) none
    [.getBean "Greeter" ScopeSingleton, .registryBean "Counter" (some (.counter 0))]
    (by decide)⟩

theorem singleton_identity_witness :
    (GetBean goReflect (RegistryBean goReflect Registries.empty "Greeter" (some .greeter)).2
        "Greeter" ScopeSingleton).1 = .returned (some .greeter, none)
      ∧ (GetBean goReflect
            (run goReflect
              (GetBean goReflect
                (RegistryBean goReflect Registries.empty "Greeter" (some .greeter)).2
                "Greeter" ScopeSingleton).2
              [.registryBean "Greeter" (some (.counter 0)), .getBean "Greeter" ScopePrototype,
               .getBean "ghost" ScopeSingleton])
            "Greeter" ScopeSingleton
          = (.returned (some .greeter, none),
              run goReflect
                (GetBean goReflect
                  (RegistryBean goReflect Registries.empty "Greeter" (some .greeter)).2
                  "Greeter" ScopeSingleton).2
                [.registryBean "Greeter" (some (.counter 0)),
                 .getBean "Greeter" ScopePrototype, .getBean "ghost" ScopeSingleton])
        ∧ (run goReflect
              (GetBean goReflect
                (RegistryBean goReflect Registries.empty "Greeter" (some .greeter)).2
                "Greeter" ScopeSingleton).2
              [.registryBean "Greeter" (some (.counter 0)), .getBean "Greeter" ScopePrototype,
               .getBean "ghost" ScopeSingleton]).beansInstanceRegistries "Greeter"
            = some (some .greeter)) :=
  ⟨by decide,
    singleton_identity goReflect
      (RegistryBean goReflect Registries.empty "Greeter" (some .greeter)).2 "Greeter"
      (some .greeter)
      [.registryBean "Greeter" (some (.counter 0)), .getBean "Greeter" ScopePrototype,
       .getBean "ghost" ScopeSingleton]
      (by decide)⟩

theorem GetBean_unregistered_witness :
    (Registries.empty : Registries GoType GoValue).beansTypeRegistries "ghost" = none
      ∧ GetBean goReflect Registries.empty "ghost" ScopePrototype
          = (.panicked .newNilType, Registries.empty)
      ∧ GetBean goReflect Registries.empty "ghost" ScopeSingleton
          = (.returned (none, some (.noBean "ghost")), Registries.empty) :=
  ⟨rfl, (GetBean_unregistered goReflect Registries.empty "ghost" rfl).1,
    (GetBean_unregistered goReflect Registries.empty "ghost" rfl).2 ScopeSingleton
      (by decide) rfl⟩

theorem GetBean_after_registration_witness :
    (GetBean goReflect (RegistryBean goReflect Registries.empty "X" none).2 "X"
        ScopePrototype).1 = .panicked .newNilType
      ∧ (GetBean goReflect (RegistryBean goReflect Registries.empty "X" none).2 "X"
          ScopeSingleton).1 = .panicked .newNilType
      ∧ (RegistryBean goReflect Registries.empty "X" none).1 = none :=
  ⟨(GetBean_after_registration goReflect Registries.empty "X" rfl).2.2.1,
   (GetBean_after_registration goReflect Registries.empty "X" rfl).2.2.2 rfl,
   (GetBean_after_registration goReflect Registries.empty "X" rfl).2.1⟩

theorem prototype_zero_and_frame_witness :
    (GetBean goReflect
          (RegistryBean goReflect Registries.empty "Counter" (some (.counter 5))).2
          "Counter" ScopeSingleton).2.beansTypeRegistries "Counter" = some (some .Counter)
      ∧ GetBean goReflect
          (GetBean goReflect
            (RegistryBean goReflect Registries.empty "Counter" (some (.counter 5))).2
            "Counter" ScopeSingleton).2
          "Counter" ScopePrototype
        = (.returned (some (.counter 0), none),
            (GetBean goReflect
              (RegistryBean goReflect Registries.empty "Counter" (some (.counter 5))).2
              "Counter" ScopeSingleton).2) :=
  ⟨by decide, prototype_zero_and_frame goReflect _ "Counter" .Counter (by decide)⟩

theorem declared_type_write_once_witness :
    (run goReflect (RegistryBean goReflect Registries.empty "X" (some .greeter)).2
        [.registryBean "X" (some (.int 7)), .getBean "X" ScopeSingleton,
         .getBean "X" ScopePrototype]).beansTypeRegistries "X" = some (some .Greeter)
      ∧ (RegistryBean goReflect (RegistryBean goReflect Registries.empty "X" (some .greeter)).2
          "X" (some (.int 7))).2
        = (RegistryBean goReflect Registries.empty "X" (some .greeter)).2 :=
  ⟨(declared_type_write_once goReflect
      (RegistryBean goReflect Registries.empty "X" (some .greeter)).2).1 "X" (some .Greeter)
      [.registryBean "X" (some (.int 7)), .getBean "X" ScopeSingleton,
       .getBean "X" ScopePrototype] (by decide),
   (declared_type_write_once goReflect
      (RegistryBean goReflect Registries.empty "X" (some .greeter)).2).2 "X" (some (.int 7))
      (by decide)⟩

end RegistryWitnesses

/-! ## Lemmas on the invoker -/

section InvokerLemmas
variable {Ty Val : Type}

/-- For a value that has the method, the lookup and the `IsZero` test are passed and the
function goes on with the arity tests, the loop and the call. -/
theorem InvokeBeanMethod_found (R : Reflect Ty Val) (v : Val) (methodName : String)
    (m : Method Ty Val) (args : List (Option Val))
    (hm : R.methodByName v methodName = some m) :
    InvokeBeanMethod R (some v) methodName args =
      if m.numIn > args.length then
        (.returned (none, some (.minParams methodName m.numIn args.length)), [])
      else if m.numIn ≠ args.length ∧ ¬ m.variadic then
        (.returned (none, some (.exactParams methodName m.numIn args.length)), [])
      else
        match coerceArgs R m methodName 0 args with
        | .panicked p => (.panicked p, [])
        | .returned (.error e) => (.returned (none, some e), [])
        | .returned (.ok params) =>
          match m.call params with
          | none => (.panicked .call, [params])
          | some values => (.returned (some values, none), [params]) := by
  simp [InvokeBeanMethod, reflectMethodByName, hm, methodIsZero]

/-- The loop only ever fails with the parameter-type error. -/
theorem coerceArgs_error (R : Reflect Ty Val) (m : Method Ty Val) (methodName : String)
    (args : List (Option Val)) (i : Nat) (e : BeanError Ty)
    (h : coerceArgs R m methodName i args = .returned (.error e)) :
    e.isParamType = true := by
  induction args generalizing i with
  | nil => simp [coerceArgs] at h
  | cons arg rest ih =>
    unfold coerceArgs at h
    split at h
    · cases h
    · split at h
      · cases h; rfl
      · simp only at h
        split at h
        · split at h
          · cases h
          · split at h
            · cases h
            · exact ih (i + 1) h
        · cases h; rfl

theorem In_lt (m : Method Ty Val) (i : Nat) (h : i < m.numIn) :
    ∃ t, m.In (i : Int) = some t := by
  refine ⟨m.ins[i], ?_⟩
  simp [Method.In, Method.numIn] at *

/-- Parameter lookups are in range: for a well-formed method type and an argument list that
passed the arity tests, every position has an expected type. -/
theorem expectedType_defined (R : Reflect Ty Val) (m : Method Ty Val)
    (args : List (Option Val)) (i : Nat) (hwf : m.wellFormed R = true)
    (har : passesArity m args) (hi : i < args.length) :
    ∃ t, expectedType R m i = .returned t := by
  obtain ⟨h1, h2⟩ := har
  unfold expectedType
  split
  · rename_i hv
    simp only [Bool.and_eq_true, decide_eq_true_eq] at hv
    simp only [Method.wellFormed, hv.1, Bool.not_true, Bool.false_or] at hwf
    cases hl : m.ins.getLast? with
    | none => simp [hl] at hwf
    | some t =>
      simp only [hl] at hwf
      have hne : m.ins ≠ [] := by
        intro e; simp [e] at hl
      have hpos : 0 < m.numIn := List.length_pos.mpr hne
      have hIn : m.In ((m.numIn : Int) - 1) = some t := by
        have : ((m.numIn : Int) - 1) = ((m.numIn - 1 : Nat) : Int) := by omega
        rw [this]
        simp only [Method.In, Int.toNat_ofNat, Int.ofNat_zero_le, if_true]
        rw [← hl, List.getLast?_eq_getElem?]
        rfl
      rw [hIn]
      cases he : R.elem t with
      | none => simp [he] at hwf
      | some e => exact ⟨e, by simp [he]⟩
  · rename_i hv
    have hlt : i < m.numIn := by
      simp only [Bool.and_eq_true, decide_eq_true_eq, not_and] at hv
      by_cases hvar : m.variadic = true
      · have := hv hvar
        omega
      · have : m.numIn = args.length := by
          by_contra hne
          exact h2 ⟨hne, hvar⟩
        omega
    obtain ⟨t, ht⟩ := In_lt m i hlt
    rw [ht]
    exact ⟨t, rfl⟩

theorem isArity_of_isParamType (e : BeanError Ty) (h : e.isParamType = true) :
    e.isArity = false := by
  cases e <;> simp_all [BeanError.isParamType, BeanError.isArity]

/-- Past the two arity tests, whatever happens is not an arity error. -/
theorem InvokeBeanMethod_passesArity (R : Reflect Ty Val) (v : Val) (methodName : String)
    (m : Method Ty Val) (args : List (Option Val))
    (hm : R.methodByName v methodName = some m) (har : passesArity m args) :
    failsWith BeanError.isArity (InvokeBeanMethod R (some v) methodName args).1 = false := by
  rw [InvokeBeanMethod_found R v methodName m args hm, if_neg har.1, if_neg har.2]
  cases hc : coerceArgs R m methodName 0 args with
  | panicked p => rfl
  | returned r =>
    cases r with
    | error e =>
      simpa [failsWith] using
        isArity_of_isParamType e (coerceArgs_error R m methodName args 0 e hc)
    | ok params =>
      cases hcall : m.call params <;> simp [failsWith, hcall]

/-- The loop succeeds with `params` when every argument is non-nil, of a type convertible
to the expected type of its position, and converted without panic to the corresponding
element of `params`. -/
theorem coerceArgs_ok (R : Reflect Ty Val) (m : Method Ty Val) (methodName : String)
    (args : List (Option Val)) (params : List Val) (i : Nat)
    (hlen : params.length = args.length)
    (h : ∀ (j : Nat) (arg : Option Val), args[j]? = some arg →
      ∃ a t p, arg = some a ∧ expectedType R m (i + j) = .returned t
        ∧ R.convertibleTo (R.typeOf a) t = true ∧ R.convert a t = some p
        ∧ params[j]? = some p) :
    coerceArgs R m methodName i args = .returned (.ok params) := by
  induction args generalizing i params with
  | nil =>
    cases params with
    | nil => rfl
    | cons p ps => simp at hlen
  | cons arg rest ih =>
    cases params with
    | nil => simp at hlen
    | cons p0 ps =>
      obtain ⟨a, t, p, ha, ht, hc, hp, hp0⟩ := h 0 arg (by simp)
      simp only [List.getElem?_cons_zero, Option.some.injEq] at hp0
      have hrest := ih ps (i + 1) (by simpa using hlen) (by
        intro j arg' hj
        obtain ⟨a', t', p', h1, h2, h3, h4, h5⟩ := h (j + 1) arg' (by simpa using hj)
        refine ⟨a', t', p', h1, ?_, h3, h4, by simpa using h5⟩
        rw [← h2]; congr 1; omega)
      subst ha
      simp only [Nat.add_zero] at ht
      unfold coerceArgs
      simp only [ht, hc, hp, hrest, if_true, hp0]

/-- The loop returns the parameter-type error of position `k` when the arguments before it
are converted without incident and argument `k` is nil or of a type not convertible to
the expected type. -/
theorem coerceArgs_first_bad (R : Reflect Ty Val) (m : Method Ty Val) (methodName : String)
    (args : List (Option Val)) (i k : Nat) (argk : Option Val) (t : Ty)
    (hprev : ∀ (j : Nat), j < k → ∀ (arg : Option Val), args[j]? = some arg →
      ∃ a t p, arg = some a ∧ expectedType R m (i + j) = .returned t
        ∧ R.convertibleTo (R.typeOf a) t = true ∧ R.convert a t = some p)
    (hk : args[k]? = some argk)
    (ht : expectedType R m (i + k) = .returned t)
    (hbad : argk = none ∨ ∃ a, argk = some a ∧ R.convertibleTo (R.typeOf a) t = false) :
    coerceArgs R m methodName i args
      = .returned (.error (.paramType methodName (i + k) t (argk.map R.typeOf))) := by
  induction args generalizing i k with
  | nil => simp at hk
  | cons arg rest ih =>
    cases k with
    | zero =>
      simp only [List.getElem?_cons_zero, Option.some.injEq] at hk
      subst hk
      simp only [Nat.add_zero] at ht ⊢
      unfold coerceArgs
      rcases hbad with h0 | ⟨a, ha, hc⟩
      · subst h0; simp [ht]
      · subst ha; simp [ht, hc]
    | succ k =>
      obtain ⟨a, t0, p, ha, ht0, hc, hp⟩ := hprev 0 (Nat.succ_pos k) arg (by simp)
      have hrest := ih (i + 1) k (by
          intro j hj arg' hj'
          obtain ⟨a', t', p', h1, h2, h3, h4⟩ :=
            hprev (j + 1) (by omega) arg' (by simpa using hj')
          refine ⟨a', t', p', h1, ?_, h3, h4⟩
          rw [← h2]; congr 1; omega)
        (by simpa using hk)
        (by rw [← ht]; congr 1; omega)
      subst ha
      simp only [Nat.add_zero] at ht0
      unfold coerceArgs
      simp only [ht0, hc, hp, hrest, if_true]
      congr 3
      omega
end InvokerLemmas

/-! ## The arity claims, and two lemmas on the argument loop -/

section InvokerClaims

variable {Ty Val : Type}

/-- C7 (variadic arity acceptance), as amended: for every variadic method with declared
parameter count `numIn`, `InvokeBeanMethod` does not fail with an arity error when
`len(args) >= numIn`, and fails with the "must have minimum" arity error, without calling
the method, when `len(args) < numIn`, in particular when `len(args) = numIn - 1`. -/
theorem variadic_arity (R : Reflect Ty Val) (v : Val) (methodName : String)
    (m : Method Ty Val) (args : List (Option Val))
    (hm : R.methodByName v methodName = some m) (hv : m.variadic = true) :
    (m.numIn ≤ args.length →
        failsWith BeanError.isArity (InvokeBeanMethod R (some v) methodName args).1 = false)
      ∧ (args.length < m.numIn →
          InvokeBeanMethod R (some v) methodName args
            = (.returned (none, some (.minParams methodName m.numIn args.length)), [])) := by
  constructor
  · intro hle
    apply InvokeBeanMethod_passesArity R v methodName m args hm
    exact ⟨by omega, by simp [hv]⟩
  · intro hlt
    rw [InvokeBeanMethod_found R v methodName m args hm, if_pos hlt]

/-- C8 (non-variadic arity enforcement): for every existing non-variadic method with declared
parameter count `numIn`, `InvokeBeanMethod` returns an arity error if and only if
`len(args) != numIn`, whatever the arguments are, and in that case the method is not
called. -/
theorem nonvariadic_arity (R : Reflect Ty Val) (v : Val) (methodName : String)
    (m : Method Ty Val) (args : List (Option Val))
    (hm : R.methodByName v methodName = some m) (hv : m.variadic = false) :
    (failsWith BeanError.isArity (InvokeBeanMethod R (some v) methodName args).1 = true
        ↔ args.length ≠ m.numIn)
      ∧ (args.length ≠ m.numIn → (InvokeBeanMethod R (some v) methodName args).2 = []) := by
  by_cases hlt : m.numIn > args.length
  · have e : InvokeBeanMethod R (some v) methodName args
        = (.returned (none, some (.minParams methodName m.numIn args.length)), []) := by
      rw [InvokeBeanMethod_found R v methodName m args hm, if_pos hlt]
    rw [e]
    exact ⟨⟨fun _ => by omega, fun _ => rfl⟩, fun _ => rfl⟩
  · by_cases hne : m.numIn ≠ args.length
    · have e : InvokeBeanMethod R (some v) methodName args
          = (.returned (none, some (.exactParams methodName m.numIn args.length)), []) := by
        rw [InvokeBeanMethod_found R v methodName m args hm, if_neg hlt,
          if_pos ⟨hne, by simp [hv]⟩]
      rw [e]
      exact ⟨⟨fun _ => fun h => hne h.symm, fun _ => rfl⟩, fun _ => rfl⟩
    · have heq : m.numIn = args.length := not_not.mp hne
      have hp : passesArity m args := ⟨hlt, fun h => h.1 heq⟩
      have hf := InvokeBeanMethod_passesArity R v methodName m args hm hp
      rw [hf]
      exact ⟨⟨fun h => Bool.noConfusion h, fun h => absurd heq.symm h⟩,
        fun h => absurd heq.symm h⟩

/-- When every argument is non-nil, passes the `ConvertibleTo` test of its position and is
converted by `Convert` to the corresponding element of `params`, and the call of the
method on `params` returns `values`, `InvokeBeanMethod` returns `values` with the nil
error, having called the method once, on `params`. -/
theorem invoke_converted_arguments (R : Reflect Ty Val) (v : Val) (methodName : String)
    (m : Method Ty Val) (args : List (Option Val)) (params : List Val)
    (values : List (Option Val))
    (hm : R.methodByName v methodName = some m) (har : passesArity m args)
    (hlen : params.length = args.length)
    (hconv : ∀ (i : Nat) (arg : Option Val), args[i]? = some arg →
      ∃ a t p, arg = some a ∧ expectedType R m i = .returned t
        ∧ R.convertibleTo (R.typeOf a) t = true ∧ R.convert a t = some p
        ∧ params[i]? = some p)
    (hcall : m.call params = some values) :
    InvokeBeanMethod R (some v) methodName args
      = (.returned (some values, none), [params]) := by
  have hc := coerceArgs_ok R m methodName args params 0 hlen (by simpa using hconv)
  rw [InvokeBeanMethod_found R v methodName m args hm, if_neg har.1, if_neg har.2, hc]
  simp [hcall]

/-- When the argument at position `i` is nil or fails the `ConvertibleTo` test of its
position, and every argument before it is non-nil, passes its test and is converted by
`Convert`, `InvokeBeanMethod` returns, without calling the method, the error reporting
index `i`, the expected type of position `i`, and the runtime type of the argument (none
for nil). -/
theorem first_offending_position_reported (R : Reflect Ty Val) (v : Val)
    (methodName : String) (m : Method Ty Val) (args : List (Option Val)) (i : Nat)
    (argi : Option Val)
    (hm : R.methodByName v methodName = some m) (hwf : m.wellFormed R = true)
    (har : passesArity m args)
    (hprev : ∀ (j : Nat), j < i → ∀ (arg : Option Val), args[j]? = some arg →
      ∃ a t p, arg = some a ∧ expectedType R m j = .returned t
        ∧ R.convertibleTo (R.typeOf a) t = true ∧ R.convert a t = some p)
    (hi : args[i]? = some argi)
    (hbad : argi = none ∨ ∃ a t, argi = some a ∧ expectedType R m i = .returned t
        ∧ R.convertibleTo (R.typeOf a) t = false) :
    ∃ t, expectedType R m i = .returned t
      ∧ InvokeBeanMethod R (some v) methodName args
          = (.returned (none, some (.paramType methodName i t (argi.map R.typeOf))), []) := by
  have hlt : i < args.length := by
    by_contra hge
    rw [List.getElem?_eq_none (by omega)] at hi
    cases hi
  obtain ⟨t, ht⟩ := expectedType_defined R m args i hwf har hlt
  refine ⟨t, ht, ?_⟩
  have hbad' : argi = none ∨ ∃ a, argi = some a ∧ R.convertibleTo (R.typeOf a) t = false := by
    rcases hbad with h | ⟨a, t', ha, ht', hc⟩
    · exact Or.inl h
    · rw [ht] at ht'
      cases ht'
      exact Or.inr ⟨a, ha, hc⟩
  have hc := coerceArgs_first_bad R m methodName args 0 i argi t
    (by simpa using hprev) hi (by simpa using ht) hbad'
  rw [InvokeBeanMethod_found R v methodName m args hm, if_neg har.1, if_neg har.2, hc]
  simp

end InvokerClaims

/-! ### The invoker on the concrete program -/

section InvokerWitnesses

open scenario

/-- Counterexample to C7 as stated: `Counter.Add(xs ...int)` is variadic with `numIn = 1`;
called with no argument, so that `len(args) = numIn - 1`, `InvokeBeanMethod` fails with
the arity error "method Add must have minimum 1 params have 0". -/
theorem variadic_empty_tail_rejected :
    goReflect.methodByName (.counter 0) "Add" = some add
      ∧ add.variadic = true
      ∧ (add.numIn : Int) - 1 ≤ (([] : List (Option GoValue)).length : Int)
      ∧ failsWith BeanError.isArity
          (InvokeBeanMethod goReflect (some (.counter 0)) "Add" []).1 = true
      ∧ InvokeBeanMethod goReflect (some (.counter 0)) "Add" []
          = (.returned (none, some (.minParams "Add" 1 0)), []) :=
  ⟨rfl, rfl, by decide, by decide, by decide⟩

theorem variadic_arity_witness :
    add.variadic = true
      ∧ failsWith BeanError.isArity
          (InvokeBeanMethod goReflect (some (.counter 0)) "Add"
            [some (.int 1), some (.string "two")]).1 = false
      ∧ InvokeBeanMethod goReflect (some (.counter 0)) "Add" []
          = (.returned (none, some (.minParams "Add" add.numIn 0)), []) :=
  ⟨rfl,
   (variadic_arity goReflect (.counter 0) "Add" add [some (.int 1), some (.string "two")]
      rfl rfl).1 (by decide),
   (variadic_arity goReflect (.counter 0) "Add" add [] rfl rfl).2 (by decide)⟩

theorem nonvariadic_arity_witness :
    greet.variadic = false
      ∧ (failsWith BeanError.isArity
            (InvokeBeanMethod goReflect (some .greeter) "Greet"
              [some (.string "Ada"), some (.string "Bob")]).1 = true
          ↔ [some (GoValue.string "Ada"), some (GoValue.string "Bob")].length ≠ greet.numIn)
      ∧ (InvokeBeanMethod goReflect (some .greeter) "Greet"
            [some (.string "Ada"), some (.string "Bob")]).2 = [] :=
  ⟨rfl,
   (nonvariadic_arity goReflect .greeter "Greet" greet
      [some (.string "Ada"), some (.string "Bob")] rfl rfl).1,
   (nonvariadic_arity goReflect .greeter "Greet" greet
      [some (.string "Ada"), some (.string "Bob")] rfl rfl).2 (by decide)⟩

end InvokerWitnesses

/-! ## Further lemmas -/

section FurtherLemmas

variable {Ty Val : Type}

/-- When the loop succeeds, every argument was non-nil, of a type convertible to the
expected type of its position, and the parameter is its conversion to that type. -/
theorem coerceArgs_ok_inv (R : Reflect Ty Val) (m : Method Ty Val) (methodName : String)
    (args : List (Option Val)) (params : List Val) (i : Nat)
    (h : coerceArgs R m methodName i args = .returned (.ok params)) :
    params.length = args.length ∧
      ∀ (j : Nat) (arg : Option Val), args[j]? = some arg →
        ∃ a t p, arg = some a ∧ expectedType R m (i + j) = .returned t
          ∧ R.convertibleTo (R.typeOf a) t = true ∧ R.convert a t = some p
          ∧ params[j]? = some p := by
  induction args generalizing i params with
  | nil =>
    simp only [coerceArgs, Outcome.returned.injEq, Except.ok.injEq] at h
    subst h
    simp
  | cons arg rest ih =>
    unfold coerceArgs at h
    split at h
    · cases h
    · rename_i inType ht
      split at h
      · cases h
      · rename_i a
        simp only at h
        split at h
        · rename_i hc
          split at h
          · cases h
          · rename_i p hp
            split at h
            · rename_i ps hrest
              simp only [Outcome.returned.injEq, Except.ok.injEq] at h
              subst h
              obtain ⟨hl, hall⟩ := ih ps (i + 1) hrest
              refine ⟨by simp [hl], ?_⟩
              intro j arg' hj
              cases j with
              | zero =>
                simp only [List.getElem?_cons_zero, Option.some.injEq] at hj
                subst hj
                exact ⟨a, inType, p, rfl, by simpa using ht, hc, hp, by simp⟩
              | succ j =>
                obtain ⟨a', t', p', h1, h2, h3, h4, h5⟩ := hall j arg' (by simpa using hj)
                refine ⟨a', t', p', h1, ?_, h3, h4, by simpa using h5⟩
                rw [← h2]; congr 1; omega
            · rename_i hne
              exact absurd h (by
                intro e
                exact hne _ e)
        · cases h

/-- The loop raises the index panic only if the lookup of some position does. -/
theorem coerceArgs_inOutOfRange (R : Reflect Ty Val) (m : Method Ty Val)
    (methodName : String) (args : List (Option Val)) (i : Nat)
    (h : coerceArgs R m methodName i args = .panicked .inOutOfRange) :
    ∃ j, j < args.length ∧ expectedType R m (i + j) = .panicked .inOutOfRange := by
  induction args generalizing i with
  | nil => simp [coerceArgs] at h
  | cons arg rest ih =>
    unfold coerceArgs at h
    split at h
    · rename_i p hp
      cases h
      exact ⟨0, by simp, by simpa using hp⟩
    · split at h
      · cases h
      · simp only at h
        split at h
        · split at h
          · cases h
          · split at h
            · cases h
            · obtain ⟨j, hj, hj'⟩ := ih (i + 1) h
              refine ⟨j + 1, by simpa using hj, ?_⟩
              rw [← hj']; congr 1; omega
        · cases h

/-- Every cached name is registered with a declared type and holds its zero value. -/
theorem step_cache (R : Reflect Ty Val) (s : Registries Ty Val) (op : Op Val)
    (hs : ∀ (n : String) (x : Option Val), s.beansInstanceRegistries n = some x →
      ∃ T, s.beansTypeRegistries n = some (some T) ∧ x = some (R.zero T))
    (n : String) (x : Option Val)
    (h : (step R s op).beansInstanceRegistries n = some x) :
    ∃ T, (step R s op).beansTypeRegistries n = some (some T) ∧ x = some (R.zero T) := by
  cases op with
  | registryBean k v =>
    have hi : (step R s (.registryBean k v)).beansInstanceRegistries
        = s.beansInstanceRegistries := by
      simp only [step, RegistryBean]
      split <;> rfl
    rw [hi] at h
    obtain ⟨T, hT, hx⟩ := hs n x h
    exact ⟨T, step_types R s _ n (some T) hT, hx⟩
  | getBean k scope =>
    by_cases hold : s.beansInstanceRegistries n = some x
    · obtain ⟨T, hT, hx⟩ := hs n x hold
      exact ⟨T, step_types R s _ n (some T) hT, hx⟩
    · revert h
      simp only [step, GetBean, getBeanType]
      split
      · split <;> intro h <;> exact absurd h hold
      · split
        · intro h; exact absurd h hold
        · cases hk : s.beansTypeRegistries k with
          | none => intro h; exact absurd h hold
          | some T =>
            cases T with
            | none =>
              simp only [reflectNewElem]
              intro h; exact absurd h hold
            | some t =>
              simp only [reflectNewElem, mapSet]
              intro h
              by_cases hn : n = k
              · subst hn
                simp only [if_true, Option.some.injEq] at h
                exact ⟨t, hk, h.symm⟩
              · simp only [hn, if_false] at h
                exact absurd h hold

theorem run_cache (R : Reflect Ty Val) (ops : List (Op Val)) (s : Registries Ty Val)
    (hs : ∀ (n : String) (x : Option Val), s.beansInstanceRegistries n = some x →
      ∃ T, s.beansTypeRegistries n = some (some T) ∧ x = some (R.zero T))
    (n : String) (x : Option Val)
    (h : (run R s ops).beansInstanceRegistries n = some x) :
    ∃ T, (run R s ops).beansTypeRegistries n = some (some T) ∧ x = some (R.zero T) := by
  induction ops generalizing s with
  | nil => exact hs n x (by simpa [run] using h)
  | cons op ops ih => exact ih (step R s op) (step_cache R s op hs) h

/-- In a state reached from the empty registries, an unregistered name is not cached. -/
theorem run_unregistered_uncached (R : Reflect Ty Val) (ops : List (Op Val)) (n : String)
    (h : (run R Registries.empty ops).beansTypeRegistries n = none) :
    (run R Registries.empty ops).beansInstanceRegistries n = none := by
  cases hc : (run R Registries.empty ops).beansInstanceRegistries n with
  | none => rfl
  | some x =>
    obtain ⟨T, hT, _⟩ := run_cache R ops Registries.empty
      (by intro n x hx; simp [Registries.empty] at hx) n x hc
    rw [h] at hT
    cases hT

end FurtherLemmas

/-! ## The remaining claims -/

section FurtherClaims

variable {Ty Val : Type}

/-- C11 (missing method), what the code does: for a value that has no method of the given
name, `MethodByName` yields the zero `reflect.Value` and the test `methodValue.IsZero()`
of line 47 panics on it, for any argument list, so the "no method" error of line 48 is
not returned; for the nil instance `MethodByName` itself panics. The method log is
empty in both cases. -/
theorem missing_method_panics (R : Reflect Ty Val) (v : Val) (methodName : String)
    (args : List (Option Val)) (h : R.methodByName v methodName = none) :
    InvokeBeanMethod R (some v) methodName args = (.panicked .isZeroInvalid, [])
      ∧ InvokeBeanMethod R none methodName args = (.panicked .methodByNameInvalid, []) := by
  simp [InvokeBeanMethod, reflectMethodByName, methodIsZero, h]

/-- C12 (an invocation succeeds entirely or fails before the call): for every instance,
method name and argument list, if `InvokeBeanMethod` returns an error then the returned
result sequence is nil and the target method was not called; if it returns the nil error
then the result sequence is not nil and the method was called exactly once. -/
theorem no_partial_success (R : Reflect Ty Val) (bean : Option Val) (methodName : String)
    (args : List (Option Val)) :
    (∀ (res : Option (List (Option Val))) (e : BeanError Ty),
        (InvokeBeanMethod R bean methodName args).1 = .returned (res, some e) →
        res = none ∧ (InvokeBeanMethod R bean methodName args).2 = [])
      ∧ ∀ (res : Option (List (Option Val))),
          (InvokeBeanMethod R bean methodName args).1 = .returned (res, none) →
          res ≠ none ∧ ∃ params, (InvokeBeanMethod R bean methodName args).2 = [params] := by
  cases bean with
  | none => simp [InvokeBeanMethod, reflectMethodByName]
  | some v =>
    cases hm : R.methodByName v methodName with
    | none => simp [InvokeBeanMethod, reflectMethodByName, methodIsZero, hm]
    | some m =>
      rw [InvokeBeanMethod_found R v methodName m args hm]
      split
      · simp
      · split
        · simp
        · cases coerceArgs R m methodName 0 args with
          | panicked p => simp
          | returned r =>
            cases r with
            | error e => simp
            | ok params =>
              cases hcall : m.call params with
              | none => simp [hcall]
              | some values => simp [hcall]

/-- C14 (too-few-arguments rule): for every existing method, variadic or not, with declared
parameter count `numIn`, if `len(args) < numIn` then `InvokeBeanMethod` returns the arity
error "must have minimum numIn params have len(args)", without calling the method. -/
theorem too_few_arguments (R : Reflect Ty Val) (v : Val) (methodName : String)
    (m : Method Ty Val) (args : List (Option Val))
    (hm : R.methodByName v methodName = some m) (hlt : args.length < m.numIn) :
    InvokeBeanMethod R (some v) methodName args
        = (.returned (none, some (.minParams methodName m.numIn args.length)), [])
      ∧ failsWith BeanError.isArity (InvokeBeanMethod R (some v) methodName args).1 = true := by
  have e : InvokeBeanMethod R (some v) methodName args
      = (.returned (none, some (.minParams methodName m.numIn args.length)), []) := by
    rw [InvokeBeanMethod_found R v methodName m args hm, if_pos hlt]
  rw [e]
  exact ⟨rfl, rfl⟩

/-- C15 (a cached instance proves registration): in every state reached from the empty
registries by `RegistryBean` and `GetBean` calls, every name present in the instance
cache is present in the type registry with a declared type `T`, and its cached instance
is the zero value of `T`; hence for a name that is not registered the cache has no entry
and `GetBean(n, ScopeSingleton)` does not return an instance. -/
theorem cached_instance_proves_registration (R : Reflect Ty Val) (ops : List (Op Val))
    (n : String) :
    (∀ x : Option Val, (run R Registries.empty ops).beansInstanceRegistries n = some x →
        ∃ T, (run R Registries.empty ops).beansTypeRegistries n = some (some T)
          ∧ x = some (R.zero T))
      ∧ ((run R Registries.empty ops).beansTypeRegistries n = none →
          (run R Registries.empty ops).beansInstanceRegistries n = none
          ∧ ∀ b : Option Val,
              (GetBean R (run R Registries.empty ops) n ScopeSingleton).1
                ≠ .returned (b, none)) := by
  refine ⟨fun x hx => run_cache R ops Registries.empty
    (by intro n x hx; simp [Registries.empty] at hx) n x hx, ?_⟩
  intro hreg
  have hc := run_unregistered_uncached R ops n hreg
  refine ⟨hc, ?_⟩
  intro b
  have hs : ScopeSingleton ≠ ScopePrototype := by decide
  simp [GetBean, getBeanType, hreg, hc, hs]

/-- C18 (registration and failed singleton lookup do not touch the instance cache): in every
state, for every name and exemplar, `RegistryBean`, succeeding or failing, leaves the
  instance cache unchanged; and in every state reached from the empty registries,
`GetBean(n, ScopeSingleton)` for an unregistered `n` returns the "no bean" error and
leaves the whole state, type registry and instance cache, unchanged. -/
theorem registration_and_failed_lookup_frame (R : Reflect Ty Val) :
    (∀ (s : Registries Ty Val) (n : String) (value : Option Val),
        (RegistryBean R s n value).2.beansInstanceRegistries = s.beansInstanceRegistries)
      ∧ ∀ (ops : List (Op Val)) (n : String),
          (run R Registries.empty ops).beansTypeRegistries n = none →
          GetBean R (run R Registries.empty ops) n ScopeSingleton
            = (.returned (none, some (.noBean n)), run R Registries.empty ops) := by
  constructor
  · intro s n value
    unfold RegistryBean
    split <;> rfl
  · intro ops n hreg
    have hc := run_unregistered_uncached R ops n hreg
    have hs : ScopeSingleton ≠ ScopePrototype := by decide
    simp [GetBean, getBeanType, hreg, hc, hs]

/-- C19 (parameter indexing is in range): for every method type, a variadic one having at
least one parameter, and every argument list that passes the two arity tests, at every
argument position `i` the lookup made is within `[0, numIn)`: `In(numIn - 1)` is made
only for a variadic method, with `0 <= numIn - 1 < numIn`, and `In(i)` otherwise, with
`i < numIn`; both lookups succeed, and the loop never raises the index panic. -/
theorem parameter_index_in_range (R : Reflect Ty Val) (m : Method Ty Val)
    (methodName : String) (args : List (Option Val))
    (hv : m.variadic = true → 1 ≤ m.numIn) (har : passesArity m args) :
    (∀ i : Nat, i < args.length →
        (m.variadic = true ∧ (m.numIn : Int) - 1 ≤ (i : Int) →
          0 ≤ (m.numIn : Int) - 1 ∧ (m.numIn : Int) - 1 < (m.numIn : Int)
            ∧ (m.In ((m.numIn : Int) - 1)).isSome = true)
        ∧ (¬ (m.variadic = true ∧ (m.numIn : Int) - 1 ≤ (i : Int)) →
          i < m.numIn ∧ (m.In (i : Int)).isSome = true)
        ∧ expectedType R m i ≠ .panicked .inOutOfRange)
      ∧ coerceArgs R m methodName 0 args ≠ .panicked .inOutOfRange := by
  have hpos : ∀ i : Nat, i < args.length →
      (m.variadic = true ∧ (m.numIn : Int) - 1 ≤ (i : Int) →
          0 ≤ (m.numIn : Int) - 1 ∧ (m.numIn : Int) - 1 < (m.numIn : Int)
            ∧ (m.In ((m.numIn : Int) - 1)).isSome = true)
        ∧ (¬ (m.variadic = true ∧ (m.numIn : Int) - 1 ≤ (i : Int)) →
          i < m.numIn ∧ (m.In (i : Int)).isSome = true)
        ∧ expectedType R m i ≠ .panicked .inOutOfRange := by
    intro i hi
    have h1 : m.variadic = true ∧ (m.numIn : Int) - 1 ≤ (i : Int) →
        0 ≤ (m.numIn : Int) - 1 ∧ (m.numIn : Int) - 1 < (m.numIn : Int)
          ∧ (m.In ((m.numIn : Int) - 1)).isSome = true := by
      rintro ⟨hvar, _⟩
      have h0 := hv hvar
      refine ⟨by omega, by omega, ?_⟩
      have e : ((m.numIn : Int) - 1) = ((m.numIn - 1 : Nat) : Int) := by omega
      obtain ⟨t, ht⟩ := In_lt m (m.numIn - 1) (by omega)
      rw [e, ht]; rfl
    have h2 : ¬ (m.variadic = true ∧ (m.numIn : Int) - 1 ≤ (i : Int)) →
        i < m.numIn ∧ (m.In (i : Int)).isSome = true := by
      intro hn
      have hlt : i < m.numIn := by
        by_cases hvar : m.variadic = true
        · have : ¬ ((m.numIn : Int) - 1 ≤ (i : Int)) := fun h => hn ⟨hvar, h⟩
          omega
        · have : m.numIn = args.length := by
            by_contra hne
            exact har.2 ⟨hne, hvar⟩
          omega
      obtain ⟨t, ht⟩ := In_lt m i hlt
      exact ⟨hlt, by rw [ht]; rfl⟩
    refine ⟨h1, h2, ?_⟩
    unfold expectedType
    by_cases hb : m.variadic = true ∧ (m.numIn : Int) - 1 ≤ (i : Int)
    · obtain ⟨_, _, hsome⟩ := h1 hb
      obtain ⟨t, ht⟩ := Option.isSome_iff_exists.mp hsome
      simp only [hb.1, hb.2, decide_True, Bool.and_self, if_true, ht]
      cases R.elem t <;> simp
    · obtain ⟨_, hsome⟩ := h2 hb
      obtain ⟨t, ht⟩ := Option.isSome_iff_exists.mp hsome
      have hb' : ¬ ((m.variadic && decide ((m.numIn : Int) - 1 ≤ (i : Int))) = true) := by
        intro h
        rw [Bool.and_eq_true, decide_eq_true_eq] at h
        exact hb h
      rw [if_neg hb', ht]
      simp
  refine ⟨hpos, ?_⟩
  intro hpanic
  obtain ⟨j, hj, hj'⟩ := coerceArgs_inOutOfRange R m methodName args 0 hpanic
  rw [Nat.zero_add] at hj'
  exact (hpos j hj).2.2 hj'

/-- C20 (scope defaulting): for every scope value other than `ScopePrototype`, `GetBean(n, s)`
is `GetBean(n, ScopeSingleton)`: same returned instance, error or panic, and same
resulting state. -/
theorem scope_defaulting (R : Reflect Ty Val) (s : Registries Ty Val) (n : String)
    (scope : ScopeBean) (h : scope ≠ ScopePrototype) :
    GetBean R s n scope = GetBean R s n ScopeSingleton := by
  have hs : ScopeSingleton ≠ ScopePrototype := by decide
  simp [GetBean, h, hs]

end FurtherClaims

/-! ### The remaining claims on the concrete program -/

section FurtherWitnesses

open scenario

theorem missing_method_panics_witness :
    goReflect.methodByName .greeter "greet" = none
      ∧ InvokeBeanMethod goReflect (some .greeter) "greet" [some (.string "Ada")]
          = (.panicked .isZeroInvalid, [])
      ∧ InvokeBeanMethod goReflect none "greet" [some (.string "Ada")]
          = (.panicked .methodByNameInvalid, []) :=
  ⟨rfl, missing_method_panics goReflect .greeter "greet" [some (.string "Ada")] rfl⟩

theorem no_partial_success_witness :
    ((none : Option (List (Option GoValue))) = none
        ∧ (InvokeBeanMethod goReflect (some .greeter) "Greet" [some (.intSlice [1])]).2 = [])
      ∧ ((some [some (GoValue.string "Hello, Ada")] : Option (List (Option GoValue))) ≠ none
        ∧ ∃ params,
            (InvokeBeanMethod goReflect (some .greeter) "Greet" [some (.string "Ada")]).2
              = [params]) :=
  ⟨(no_partial_success goReflect (some .greeter) "Greet" [some (.intSlice [1])]).1 none
      (.paramType "Greet" 0 .string (some .intSlice)) (by decide),
   (no_partial_success goReflect (some .greeter) "Greet" [some (.string "Ada")]).2
      (some [some (.string "Hello, Ada")]) (by decide)⟩

theorem too_few_arguments_witness :
    [some (GoValue.intSlice [5, 7])].length < at_.numIn
      ∧ InvokeBeanMethod goReflect (some (.counter 0)) "At" [some (.intSlice [5, 7])]
          = (.returned (none, some (.minParams "At" at_.numIn
              [some (GoValue.intSlice [5, 7])].length)), [])
      ∧ failsWith BeanError.isArity
          (InvokeBeanMethod goReflect (some (.counter 0)) "At" [some (.intSlice [5, 7])]).1
          = true :=
  ⟨by decide,
   too_few_arguments goReflect (.counter 0) "At" at_ [some (.intSlice [5, 7])] rfl
     (by decide)⟩

theorem cached_instance_proves_registration_witness :
    (∃ T, (run goReflect Registries.empty
              [.registryBean "Greeter" (some .greeter),
               .getBean "Greeter" ScopeSingleton]).beansTypeRegistries "Greeter"
            = some (some T)
          ∧ some GoValue.greeter = some (goReflect.zero T))
      ∧ (run goReflect Registries.empty
            [.registryBean "Greeter" (some .greeter),
             .getBean "Greeter" ScopeSingleton]).beansInstanceRegistries "ghost" = none :=
  ⟨(cached_instance_proves_registration goReflect
      [.registryBean "Greeter" (some .greeter), .getBean "Greeter" ScopeSingleton]
      "Greeter").1 (some .greeter) (by decide),
   ((cached_instance_proves_registration goReflect
      [.registryBean "Greeter" (some .greeter), .getBean "Greeter" ScopeSingleton]
      "ghost").2 (by decide)).1⟩

theorem registration_and_failed_lookup_frame_witness :
    (RegistryBean goReflect
        (run goReflect Registries.empty
          [.registryBean "Greeter" (some .greeter), .getBean "Greeter" ScopeSingleton])
        "Counter" (some (.counter 3))).2.beansInstanceRegistries
        = (run goReflect Registries.empty
            [.registryBean "Greeter" (some .greeter),
             .getBean "Greeter" ScopeSingleton]).beansInstanceRegistries
      ∧ GetBean goReflect
          (run goReflect Registries.empty
            [.registryBean "Greeter" (some .greeter), .getBean "Greeter" ScopeSingleton])
          "ghost" ScopeSingleton
        = (.returned (none, some (.noBean "ghost")),
            run goReflect Registries.empty
              [.registryBean "Greeter" (some .greeter), .getBean "Greeter" ScopeSingleton]) :=
  ⟨(registration_and_failed_lookup_frame goReflect).1 _ "Counter" (some (.counter 3)),
   (registration_and_failed_lookup_frame goReflect).2
      [.registryBean "Greeter" (some .greeter), .getBean "Greeter" ScopeSingleton] "ghost"
      (by decide)⟩

theorem parameter_index_in_range_witness :
    expectedType goReflect add 2 ≠ .panicked .inOutOfRange
      ∧ coerceArgs goReflect add "Add" 0 [some (.int 1), some (.int 2), some (.int 3)]
          ≠ .panicked .inOutOfRange :=
  ⟨((parameter_index_in_range goReflect add "Add"
        [some (.int 1), some (.int 2), some (.int 3)] (by decide) (by decide)).1 2
        (by decide)).2.2,
   (parameter_index_in_range goReflect add "Add"
        [some (.int 1), some (.int 2), some (.int 3)] (by decide) (by decide)).2⟩

theorem scope_defaulting_witness :
    (0 : ScopeBean) ≠ ScopePrototype
      ∧ GetBean goReflect
          (RegistryBean goReflect Registries.empty "Greeter" (some .greeter)).2
          "Greeter" 0
        = GetBean goReflect
            (RegistryBean goReflect Registries.empty "Greeter" (some .greeter)).2
            "Greeter" ScopeSingleton :=
  ⟨by decide, scope_defaulting goReflect _ "Greeter" 0 (by decide)⟩

end FurtherWitnesses

/-! ## The claims on the conversion of the arguments -/

section ConversionLemmas

variable {Ty Val : Type}

/-- An argument of a documented conversion passes the test and is converted. -/
theorem documented_converts (R : Reflect Ty Val) (D : DocumentedConversions R) (a : Val)
    (t : Ty) (h : D.documented (R.typeOf a) t = true) :
    R.convertibleTo (R.typeOf a) t = true ∧ ∃ p, R.convert a t = some p :=
  ⟨D.convertible _ _ h, Option.isSome_iff_exists.mp (D.converts a t h)⟩

/-- The loop succeeds when every argument is non-nil and of a type with a documented
conversion to the expected type of its position. -/
theorem coerceArgs_documented (R : Reflect Ty Val) (D : DocumentedConversions R)
    (m : Method Ty Val) (methodName : String) (args : List (Option Val)) (i : Nat)
    (h : ∀ (j : Nat) (arg : Option Val), args[j]? = some arg →
      ∃ a t, arg = some a ∧ expectedType R m (i + j) = .returned t
        ∧ D.documented (R.typeOf a) t = true) :
    ∃ params, coerceArgs R m methodName i args = .returned (.ok params) := by
  induction args generalizing i with
  | nil => exact ⟨[], rfl⟩
  | cons arg rest ih =>
    obtain ⟨a, t, ha, ht, hd⟩ := h 0 arg (by simp)
    obtain ⟨hc, p, hp⟩ := documented_converts R D a t hd
    obtain ⟨ps, hps⟩ := ih (i + 1) (by
      intro j arg' hj
      obtain ⟨a', t', h1, h2, h3⟩ := h (j + 1) arg' (by simpa using hj)
      refine ⟨a', t', h1, ?_, h3⟩
      rw [← h2]; congr 1; omega)
    subst ha
    simp only [Nat.add_zero] at ht
    refine ⟨p :: ps, ?_⟩
    unfold coerceArgs
    simp only [ht, hc, hp, hps, if_true]

/-- The loop panics at the first argument that passes the `ConvertibleTo` test and on which
`Convert` panics, the arguments before it being converted, whatever comes after it. -/
theorem coerceArgs_convert_panic (R : Reflect Ty Val) (m : Method Ty Val)
    (methodName : String) (args : List (Option Val)) (i k : Nat) (a : Val) (t : Ty)
    (hprev : ∀ (j : Nat), j < k → ∀ (arg : Option Val), args[j]? = some arg →
      ∃ a t p, arg = some a ∧ expectedType R m (i + j) = .returned t
        ∧ R.convertibleTo (R.typeOf a) t = true ∧ R.convert a t = some p)
    (hk : args[k]? = some (some a))
    (ht : expectedType R m (i + k) = .returned t)
    (hc : R.convertibleTo (R.typeOf a) t = true) (hp : R.convert a t = none) :
    coerceArgs R m methodName i args = .panicked .convert := by
  induction args generalizing i k with
  | nil => simp at hk
  | cons arg rest ih =>
    cases k with
    | zero =>
      simp only [List.getElem?_cons_zero, Option.some.injEq] at hk
      subst hk
      simp only [Nat.add_zero] at ht
      unfold coerceArgs
      simp [ht, hc, hp]
    | succ k =>
      obtain ⟨a0, t0, p0, ha0, ht0, hc0, hp0⟩ := hprev 0 (Nat.succ_pos k) arg (by simp)
      have hrest := ih (i + 1) k (by
          intro j hj arg' hj'
          obtain ⟨a', t', p', h1, h2, h3, h4⟩ :=
            hprev (j + 1) (by omega) arg' (by simpa using hj')
          refine ⟨a', t', p', h1, ?_, h3, h4⟩
          rw [← h2]; congr 1; omega)
        (by simpa using hk)
        (by rw [← ht]; congr 1; omega)
      subst ha0
      simp only [Nat.add_zero] at ht0
      unfold coerceArgs
      simp only [ht0, hc0, hp0, hrest, if_true]

end ConversionLemmas

section ConversionClaims

variable {Ty Val : Type}

/-- C9 (successful coercion), as amended: for every existing method and every argument list
that passes the arity tests in which every argument is a non-nil value whose type has a
documented conversion (identical type, widening numeric conversion, assignability) to the
expected type of its position, every argument is converted to its expected type, giving
`params` of the same length and order; if the call of the method on `params` returns,
`InvokeBeanMethod` returns the nil error and exactly the values that call returned,
having called the method once, on `params`; and if that call panics, the panic is not
caught and `InvokeBeanMethod` panics. -/
theorem invoke_documented_arguments (R : Reflect Ty Val) (D : DocumentedConversions R)
    (v : Val) (methodName : String) (m : Method Ty Val) (args : List (Option Val))
    (hm : R.methodByName v methodName = some m) (har : passesArity m args)
    (hdoc : ∀ (i : Nat) (arg : Option Val), args[i]? = some arg →
      ∃ a t, arg = some a ∧ expectedType R m i = .returned t
        ∧ D.documented (R.typeOf a) t = true) :
    ∃ params : List Val, params.length = args.length
      ∧ (∀ (i : Nat) (arg : Option Val), args[i]? = some arg →
          ∃ a t p, arg = some a ∧ expectedType R m i = .returned t
            ∧ R.convert a t = some p ∧ params[i]? = some p)
      ∧ (∀ values : List (Option Val), m.call params = some values →
          InvokeBeanMethod R (some v) methodName args
            = (.returned (some values, none), [params]))
      ∧ (m.call params = none →
          InvokeBeanMethod R (some v) methodName args = (.panicked .call, [params])) := by
  obtain ⟨params, hc⟩ := coerceArgs_documented R D m methodName args 0 (by simpa using hdoc)
  obtain ⟨hlen, hall⟩ := coerceArgs_ok_inv R m methodName args params 0 hc
  refine ⟨params, hlen, ?_, ?_, ?_⟩
  · intro i arg hi
    obtain ⟨a, t, p, h1, h2, _, h4, h5⟩ := hall i arg hi
    rw [Nat.zero_add] at h2
    exact ⟨a, t, p, h1, h2, h4, h5⟩
  · intro values hcall
    rw [InvokeBeanMethod_found R v methodName m args hm, if_neg har.1, if_neg har.2, hc]
    simp [hcall]
  · intro hcall
    rw [InvokeBeanMethod_found R v methodName m args hm, if_neg har.1, if_neg har.2, hc]
    simp [hcall]

/-- C10 (type mismatch names the offending position), what the code does: for every existing
method (of well-formed type) and argument list that passes the arity tests, when the
arguments before position `i` are converted, a nil or `ConvertibleTo`-failing argument
at position `i` gives the error naming index `i`, the expected type and the argument's
type; but when an argument passes the `ConvertibleTo` test of line 71 and the `Convert` of
line 72 panics on it, `InvokeBeanMethod` panics there and returns no error, whatever the
arguments after it are, a nil or inconvertible one included. -/
theorem offending_position_or_convert_panic (R : Reflect Ty Val) (v : Val)
    (methodName : String) (m : Method Ty Val) (args : List (Option Val))
    (hm : R.methodByName v methodName = some m) (hwf : m.wellFormed R = true)
    (har : passesArity m args) :
    (∀ (i : Nat) (argi : Option Val),
        (∀ (j : Nat), j < i → ∀ (arg : Option Val), args[j]? = some arg →
          ∃ a t p, arg = some a ∧ expectedType R m j = .returned t
            ∧ R.convertibleTo (R.typeOf a) t = true ∧ R.convert a t = some p) →
        args[i]? = some argi →
        (argi = none ∨ ∃ a t, argi = some a ∧ expectedType R m i = .returned t
            ∧ R.convertibleTo (R.typeOf a) t = false) →
        ∃ t, expectedType R m i = .returned t
          ∧ InvokeBeanMethod R (some v) methodName args
              = (.returned (none, some (.paramType methodName i t (argi.map R.typeOf))), []))
      ∧ ∀ (k : Nat) (a : Val) (t : Ty),
          (∀ (j : Nat), j < k → ∀ (arg : Option Val), args[j]? = some arg →
            ∃ a t p, arg = some a ∧ expectedType R m j = .returned t
              ∧ R.convertibleTo (R.typeOf a) t = true ∧ R.convert a t = some p) →
          args[k]? = some (some a) → expectedType R m k = .returned t →
          R.convertibleTo (R.typeOf a) t = true → R.convert a t = none →
          InvokeBeanMethod R (some v) methodName args = (.panicked .convert, []) := by
  constructor
  · intro i argi hprev hi hbad
    exact first_offending_position_reported R v methodName m args i argi hm hwf har hprev
      hi hbad
  · intro k a t hprev hk ht hc hp
    have hpanic := coerceArgs_convert_panic R m methodName args 0 k a t
      (by simpa using hprev) hk (by simpa using ht) hc hp
    rw [InvokeBeanMethod_found R v methodName m args hm, if_neg har.1, if_neg har.2, hpanic]

/-- C13 (nil argument is rejected): for every existing method (of well-formed type) and every
argument list passing the arity tests that holds the nil interface at position `i`, every
earlier argument being a non-nil value whose type has a documented conversion (identical
type, widening numeric conversion, assignability) to its expected type,
`InvokeBeanMethod` returns the parameter-type error for position `i`, whatever the
expected type of that position is, and does not call the method. -/
theorem nil_argument_rejected (R : Reflect Ty Val) (D : DocumentedConversions R) (v : Val)
    (methodName : String) (m : Method Ty Val) (args : List (Option Val)) (i : Nat)
    (hm : R.methodByName v methodName = some m) (hwf : m.wellFormed R = true)
    (har : passesArity m args)
    (hprev : ∀ (j : Nat), j < i → ∀ (arg : Option Val), args[j]? = some arg →
      ∃ a t, arg = some a ∧ expectedType R m j = .returned t
        ∧ D.documented (R.typeOf a) t = true)
    (hi : args[i]? = some none) :
    ∃ t, expectedType R m i = .returned t
      ∧ InvokeBeanMethod R (some v) methodName args
          = (.returned (none, some (.paramType methodName i t none)), []) := by
  have hlt : i < args.length := by
    by_contra hge
    rw [List.getElem?_eq_none (by omega)] at hi
    cases hi
  obtain ⟨t, ht⟩ := expectedType_defined R m args i hwf har hlt
  refine ⟨t, ht, ?_⟩
  have hc := coerceArgs_first_bad R m methodName args 0 i none t
    (by
      intro j hj arg harg
      obtain ⟨a, t', h1, h2, h3⟩ := hprev j hj arg harg
      obtain ⟨h4, p, h5⟩ := documented_converts R D a t' h3
      exact ⟨a, t', p, h1, by simpa using h2, h4, h5⟩)
    hi (by simpa using ht) (Or.inl rfl)
  rw [InvokeBeanMethod_found R v methodName m args hm, if_neg har.1, if_neg har.2, hc]
  simp

end ConversionClaims

/-! ### The conversion claims on the concrete program -/

section ConversionWitnesses

open scenario

/-- Counterexample to C9 as stated: `Counter.At(p *[2]int, i int)` called with a pointer to
`[2]int{5, 7}` and the index 2.  The arity tests pass and both arguments are non-nil values
of exactly the expected type of their position, but the method body panics (index out of
range), so `InvokeBeanMethod`, having called the method, panics too: it returns neither
the nil error nor a result. -/
theorem target_method_panic_propagates :
    goReflect.methodByName (.counter 0) "At" = some at_
      ∧ passesArity at_ [some (.intArray2Ptr (some (5, 7))), some (.int 2)]
      ∧ expectedType goReflect at_ 0 = .returned .intArray2Ptr
      ∧ documentedConversion (goReflect.typeOf (.intArray2Ptr (some (5, 7)))) .intArray2Ptr
          = true
      ∧ expectedType goReflect at_ 1 = .returned .int
      ∧ documentedConversion (goReflect.typeOf (.int 2)) .int = true
      ∧ InvokeBeanMethod goReflect (some (.counter 0)) "At"
          [some (.intArray2Ptr (some (5, 7))), some (.int 2)]
        = (.panicked .call, [[.intArray2Ptr (some (5, 7)), .int 2]]) :=
  ⟨rfl, by decide, by decide, by decide, by decide, by decide, by decide⟩

theorem invoke_documented_arguments_witness :
    InvokeBeanMethod goReflect (some .greeter) "Greet" [some (.string "Ada")]
        = (.returned (some [some (.string "Hello, Ada")], none), [[.string "Ada"]])
      ∧ InvokeBeanMethod goReflect (some (.counter 0)) "Add"
          [some (.int 1), some (.int 2), some (.int 3)]
        = (.returned (some [some (.int 6)], none), [[.int 1, .int 2, .int 3]]) := by
  constructor
  · obtain ⟨params, hlen, hpar, hres, _⟩ :=
      invoke_documented_arguments goReflect documented .greeter "Greet" greet
        [some (.string "Ada")] rfl (by decide)
        (by
          intro i arg hi
          match i, hi with
          | 0, hi =>
            simp only [List.getElem?_cons_zero, Option.some.injEq] at hi
            subst hi
            exact ⟨.string "Ada", .string, rfl, by decide, by decide⟩
          | i + 1, hi => simp at hi)
    obtain ⟨a, t, p, h1, h2, h3, h4⟩ := hpar 0 (some (.string "Ada")) (by simp)
    have ht : expectedType goReflect greet 0 = .returned .string := by decide
    rw [ht] at h2
    cases h2
    cases h1
    have hp : goReflect.convert (.string "Ada") .string = some (.string "Ada") := by decide
    rw [hp] at h3
    cases h3
    have hparams : params = [.string "Ada"] := by
      match params, hlen, h4 with
      | [q], _, h4 =>
        simp only [List.getElem?_cons_zero, Option.some.injEq] at h4
        rw [h4]
    subst hparams
    exact hres [some (.string "Hello, Ada")] (by decide)
  · obtain ⟨params, hlen, hpar, hres, _⟩ :=
      invoke_documented_arguments goReflect documented (.counter 0) "Add" add
        [some (.int 1), some (.int 2), some (.int 3)] rfl (by decide)
        (by
          intro i arg hi
          match i, hi with
          | 0, hi =>
            simp only [List.getElem?_cons_zero, Option.some.injEq] at hi
            subst hi
            exact ⟨.int 1, .int, rfl, by decide, by decide⟩
          | 1, hi =>
            simp only [List.getElem?_cons_succ, List.getElem?_cons_zero,
              Option.some.injEq] at hi
            subst hi
            exact ⟨.int 2, .int, rfl, by decide, by decide⟩
          | 2, hi =>
            simp only [List.getElem?_cons_succ, List.getElem?_cons_zero,
              Option.some.injEq] at hi
            subst hi
            exact ⟨.int 3, .int, rfl, by decide, by decide⟩
          | i + 3, hi => simp at hi)
    have key : ∀ (i : Nat) (x : Int), i < 3 →
        [some (GoValue.int 1), some (GoValue.int 2), some (GoValue.int 3)][i]?
          = some (some (.int x)) → params[i]? = some (.int x) := by
      intro i x hi3 hi
      obtain ⟨a, t, p, h1, h2, h3, h4⟩ := hpar i (some (.int x)) hi
      cases h1
      have ht : expectedType goReflect add i = .returned .int := by
        match i, hi3 with
        | 0, _ => decide
        | 1, _ => decide
        | 2, _ => decide
      rw [ht] at h2
      cases h2
      have hp : goReflect.convert (.int x) .int = some (.int x) := rfl
      rw [hp] at h3
      cases h3
      exact h4
    have h0 := key 0 1 (by decide) (by simp)
    have h1 := key 1 2 (by decide) (by simp)
    have h2 := key 2 3 (by decide) (by simp)
    have hparams : params = [.int 1, .int 2, .int 3] := by
      match params, hlen, h0, h1, h2 with
      | [q0, q1, q2], _, h0, h1, h2 =>
        simp only [List.getElem?_cons_zero, List.getElem?_cons_succ,
          Option.some.injEq] at h0 h1 h2
        rw [h0, h1, h2]
    subst hparams
    exact hres [some (.int 6)] (by decide)

theorem offending_position_or_convert_panic_witness :
    (∃ t, expectedType goReflect at_ 1 = .returned t
        ∧ InvokeBeanMethod goReflect (some (.counter 0)) "At"
            [some (.intSlice [5, 7]), some (.string "x")]
          = (.returned (none, some (.paramType "At" 1 t (some .string))), []))
      ∧ InvokeBeanMethod goReflect (some (.counter 0)) "At" [some (.intSlice [7]), none]
          = (.panicked .convert, []) :=
  ⟨(offending_position_or_convert_panic goReflect (.counter 0) "At" at_
      [some (.intSlice [5, 7]), some (.string "x")] rfl (by decide) (by decide)).1 1
      (some (.string "x"))
      (by
        intro j hj arg hi
        match j, hj, hi with
        | 0, _, hi =>
          simp only [List.getElem?_cons_zero, Option.some.injEq] at hi
          subst hi
          exact ⟨.intSlice [5, 7], .intArray2Ptr, .intArray2Ptr (some (5, 7)), rfl,
            by decide, by decide, by decide⟩)
      (by decide)
      (Or.inr ⟨.string "x", .int, rfl, by decide, by decide⟩),
   (offending_position_or_convert_panic goReflect (.counter 0) "At" at_
      [some (.intSlice [7]), none] rfl (by decide) (by decide)).2 0 (.intSlice [7])
      .intArray2Ptr
      (by intro j hj; exact absurd hj (Nat.not_lt_zero j))
      (by decide) (by decide) (by decide) (by decide)⟩

theorem nil_argument_rejected_witness :
    ∃ t, expectedType goReflect at_ 1 = .returned t
      ∧ InvokeBeanMethod goReflect (some (.counter 0)) "At"
          [some (.intArray2Ptr (some (5, 7))), none]
        = (.returned (none, some (.paramType "At" 1 t none)), []) :=
  nil_argument_rejected goReflect documented (.counter 0) "At" at_
    [some (.intArray2Ptr (some (5, 7))), none] 1 rfl (by decide) (by decide)
    (by
      intro j hj arg hi
      match j, hj, hi with
      | 0, _, hi =>
        simp only [List.getElem?_cons_zero, Option.some.injEq] at hi
        subst hi
        exact ⟨.intArray2Ptr (some (5, 7)), .intArray2Ptr, rfl, by decide, by decide⟩)
    (by decide)

end ConversionWitnesses

end beans
